import Mathlib

/-!
Verification of the dependente repository (fatiando/dependente).

The Python sources are shallowly embedded:
text (Python `str`) is modelled as `List Char`, Python lists as Lean lists,
dictionaries as association lists (insertion-ordered, as in CPython), and
fallible code as `Except`.  Each definition mirrors one Python function:

* `pin_to_oldest` mirrors `converters.pin_to_oldest`;
* `validate_sources`, `ParserSetupCfg.*` and `ParserPyprojectToml.*`
  mirror `parsers.py`;
* `Cli.parse_sources`, `Cli.parse_setup_cfg`, `Cli.parse_pyproject_toml`
  and `Cli.main_extract` mirror `cli.py`;
* `get_sources_and_config_files` is modelled from the spec (the function is
  imported and exercised by `tests/test_cli_utils.py` but its body is not in
  the provided sources).
-/

/-- Character list of a string literal, used to write concrete Python strings. -/
def strL (s : String) : List Char := s.data

/-- Whitespace characters stripped by Python `str.strip()` (ASCII whitespace). -/
def isPySpace (c : Char) : Bool :=
  c = ' ' || c = '\t' || c = '\n' || c = '\r' || c = '\x0b' || c = '\x0c'

/-- Python `str.lstrip()`. -/
def lstrip (l : List Char) : List Char := l.dropWhile isPySpace

/-- Python `str.rstrip()`. -/
def rstrip (l : List Char) : List Char := ((l.reverse).dropWhile isPySpace).reverse

/-- Python `str.strip()`. -/
def strip (l : List Char) : List Char := rstrip (lstrip l)

/-- Python `line.strip().startswith("#")`: test for a comment line. -/
def startsWithHash (l : List Char) : Bool :=
  match strip l with
  | '#' :: _ => true
  | _ => false

/-- Python `line.split(",")[0]`: the text before the first comma. -/
def beforeComma (l : List Char) : List Char := l.takeWhile (fun c => c ≠ ',')

/-- Python `s.replace(">=", "==")`: leftmost non-overlapping replacement. -/
def replaceGe : List Char → List Char
  | [] => []
  | [c] => [c]
  | a :: b :: rest =>
    if a = '>' && b = '=' then '=' :: '=' :: replaceGe rest
    else a :: replaceGe (b :: rest)

/-- Test whether the substring ">=" occurs. -/
def hasGe : List Char → Bool
  | [] => false
  | [_] => false
  | a :: b :: rest => (a = '>' && b = '=') || hasGe (b :: rest)

/-- Test whether the substring ">>=" occurs. -/
def hasGGe : List Char → Bool
  | [] => false
  | [_] => false
  | [_, _] => false
  | a :: b :: c :: rest => (a = '>' && b = '>' && c = '=') || hasGGe (b :: c :: rest)

/-- One iteration of the loop body of `converters.pin_to_oldest`:
comment lines are kept verbatim, any other line is truncated at the first
comma, has `>=` replaced by `==` and is stripped of surrounding whitespace. -/
def pinLine (l : List Char) : List Char :=
  if startsWithHash l then l else strip (replaceGe (beforeComma l))

/-- Embeds `converters.pin_to_oldest`. -/
def pin_to_oldest (requirements : List (List Char)) : List (List Char) :=
  requirements.map pinLine

example : pin_to_oldest [strL "bla>=12"] = [strL "bla==12"] := by decide
example : pin_to_oldest [strL "bla>=11,<12"] = [strL "bla==11"] := by decide
example : pin_to_oldest [strL "# meh"] = [strL "# meh"] := by decide
example : pin_to_oldest [strL "a>>=1"] = [strL "a>==1"] := by decide
example : pin_to_oldest [strL "a>==1"] = [strL "a===1"] := by decide

/-- Python `s.split("\n")`: e.g. `"" ↦ [""]`, `"a\nb" ↦ ["a", "b"]`. -/
def splitNl : List Char → List (List Char)
  | [] => [[]]
  | c :: rest =>
    if c = '\n' then [] :: splitNl rest
    else
      match splitNl rest with
      | [] => [[c]]
      | h :: t => (c :: h) :: t

example : splitNl (strL "") = [[]] := by decide
example : splitNl (strL "a\nb") = [strL "a", strL "b"] := by decide

/-- Python dictionary lookup on an insertion-ordered association list. -/
def alookup {α : Type} (k : List Char) (m : List (List Char × α)) : Option α :=
  (m.find? (fun p => p.1 = k)).map (fun p => p.2)

/-- The distinguishable error conditions raised by the embedded code.  Each
constructor corresponds to one `raise` site (or to a dynamic `KeyError` /
`FileNotFoundError` produced by an unguarded lookup or file read). -/
inductive PyErr : Type where
  /-- Python `KeyError` from an unguarded dictionary lookup. -/
  | keyError : List Char → PyErr
  /-- Python `FileNotFoundError` from opening an absent file. -/
  | fileNotFound : List Char → PyErr
  /-- parsers.py: "No sources were provided. ..." -/
  | emptySources : PyErr
  /-- parsers.py: "Invalid sources '{invalid}'. ..." with the reported set. -/
  | invalidSources : List String → PyErr
  /-- parsers.py: "Found repeated sources: '{repeated}'." -/
  | repeatedSources : List String → PyErr
  /-- cli.py parse_sources: "Invalid source '{entry}'. ..." -/
  | invalidSource : List Char → PyErr
  /-- parsers.py: "Cannot parse 'build' sources from setup.cfg." -/
  | cannotParseBuild : PyErr
  /-- "Missing '{field}' field in setup.cfg." -/
  | missingField : List Char → PyErr
  /-- "Missing '{section}' section in {file}." -/
  | missingSection : List Char → List Char → PyErr
  /-- "Missing '{entry}' entry from the '{section}' section in pyproject.toml." -/
  | missingEntry : List Char → List Char → PyErr
  /-- Python `TypeError` from using a value with the wrong dynamic type. -/
  | typeError : PyErr
deriving DecidableEq

instance {ε α : Type} [DecidableEq ε] [DecidableEq α] : DecidableEq (Except ε α) :=
  fun x y =>
    match x, y with
    | .ok a, .ok b =>
      if h : a = b then isTrue (by rw [h]) else isFalse (by intro he; cases he; exact h rfl)
    | .error a, .error b =>
      if h : a = b then isTrue (by rw [h]) else isFalse (by intro he; cases he; exact h rfl)
    | .ok _, .error _ => isFalse (by intro he; cases he)
    | .error _, .ok _ => isFalse (by intro he; cases he)

/-- The list `["build", "install", "extras"]` backing the Python set literal
`set(["build", "install", "extras"])` in `parsers.validate_sources`. -/
def valid_sources_list : List String := ["build", "install", "extras"]

/-- Embeds `parsers.validate_sources`.  Note the reported set of the
"Invalid sources" error is computed, as in the source, as
`valid_sources - set(sources)` (iterated here in the order of the literal). -/
def validate_sources (sources : List String) : Except PyErr Unit :=
  if sources = [] then
    .error .emptySources
  else if !(sources.all (fun s => valid_sources_list.contains s)) then
    .error (.invalidSources (valid_sources_list.filter (fun v => !(sources.contains v))))
  else
    let repeated := sources.filter (fun s => 1 < sources.count s)
    if repeated ≠ [] then .error (.repeatedSources repeated) else .ok ()

example : validate_sources ["install", "extras"] = .ok () := by decide
example : validate_sources [] = .error .emptySources := by decide
example : validate_sources ["bogus"] =
    .error (.invalidSources ["build", "install", "extras"]) := by decide
example : validate_sources ["build", "extras", "build"] =
    .error (.repeatedSources ["build", "build"]) := by decide

/-- A parsed setup.cfg as produced by `ParserSetupCfg.config`: a dictionary
from section name to a dictionary from key to string value. -/
abbrev SetupCfgConfig := List (List Char × List (List Char × List Char))

/-- A TOML value as far as the code inspects one: a string, an array of
strings, or a table. -/
inductive TomlVal : Type where
  | str : List Char → TomlVal
  | arr : List (List Char) → TomlVal
  | table : List (List Char × TomlVal) → TomlVal

/-- A parsed pyproject.toml as produced by `tomli.load`: a top-level table. -/
abbrev PyprojectConfig := List (List Char × TomlVal)

namespace ParserSetupCfg

/-- Embeds `ParserSetupCfg.parse_install_dependencies`.  The lookup
`self.config["options"]` is evaluated before the `in` guard, so a config
without an `options` section raises a `KeyError`, not the "Missing ... field"
`ValueError`. -/
def parse_install_dependencies (config : SetupCfgConfig) :
    Except PyErr (List (List Char)) :=
  match alookup (strL "options") config with
  | none => .error (.keyError (strL "options"))
  | some options =>
    match alookup (strL "install_requires") options with
    | none => .error (.missingField (strL "install_requires"))
    | some value =>
      .ok (strL "# Install (run-time) dependencies from setup.cfg" ::
        (splitNl (strip value)).map strip)

/-- Embeds `ParserSetupCfg.parse_extra_dependencies`. -/
def parse_extra_dependencies (config : SetupCfgConfig) :
    Except PyErr (List (List Char)) :=
  match alookup (strL "options.extras_require") config with
  | none => .error (.missingSection (strL "options.extras_require") (strL "setup.cfg"))
  | some sections =>
    .ok (strL "# Extra (optional) dependencies from setup.cfg" ::
      sections.flatMap (fun sec =>
        (strL "#   extra: " ++ sec.1) :: (splitNl (strip sec.2)).map strip))

/-- Embeds `ParserSetupCfg.parse_requirements`: validation, the `build`
rejection, then the fixed `install`-before-`extras` processing order. -/
def parse_requirements (config : SetupCfgConfig) (sources : List String) :
    Except PyErr (List (List Char)) := do
  let _ ← validate_sources sources
  if sources.contains "build" then
    .error .cannotParseBuild
  else do
    let d1 ← if sources.contains "install" then parse_install_dependencies config
             else pure []
    let d2 ← if sources.contains "extras" then parse_extra_dependencies config
             else pure []
    pure (d1 ++ d2)

end ParserSetupCfg

namespace ParserPyprojectToml

/-- Embeds `ParserPyprojectToml.parse_build_dependencies`. -/
def parse_build_dependencies (config : PyprojectConfig) :
    Except PyErr (List (List Char)) :=
  match alookup (strL "build-system") config with
  | none => .error (.missingSection (strL "build-system") (strL "pyproject.toml"))
  | some (.table section_) =>
    match alookup (strL "requires") section_ with
    | none => .error (.missingEntry (strL "requires") (strL "build-system"))
    | some (.arr packages) =>
      .ok (strL "# Build dependencies from pyproject.toml" :: packages.map strip)
    | some _ => .error .typeError
  | some _ => .error .typeError

/-- Embeds `ParserPyprojectToml.parse_install_dependencies`: each entry is
stripped and then has every space removed (`.replace(" ", "")`). -/
def parse_install_dependencies (config : PyprojectConfig) :
    Except PyErr (List (List Char)) :=
  match alookup (strL "project") config with
  | none => .error (.missingSection (strL "project") (strL "pyproject.toml"))
  | some (.table section_) =>
    match alookup (strL "dependencies") section_ with
    | none => .error (.missingEntry (strL "dependencies") (strL "project"))
    | some (.arr packages) =>
      .ok (strL "# Install dependencies from pyproject.toml" ::
        packages.map (fun p => (strip p).filter (fun c => c ≠ ' ')))
    | some _ => .error .typeError
  | some _ => .error .typeError

/-- Embeds `ParserPyprojectToml.parse_extra_dependencies`. -/
def parse_extra_dependencies (config : PyprojectConfig) :
    Except PyErr (List (List Char)) :=
  match alookup (strL "project") config with
  | none => .error (.missingSection (strL "project") (strL "pyproject.toml"))
  | some (.table section_) =>
    match alookup (strL "optional-dependencies") section_ with
    | none => .error (.missingSection (strL "project.optional-dependencies")
        (strL "pyproject.toml"))
    | some (.table groups) =>
      .ok (strL "# Extra (optional) dependencies from pyproject.toml" ::
        groups.flatMap (fun g =>
          match g.2 with
          | .arr packages =>
            (strL "#   extra: " ++ g.1) ::
              packages.map (fun p => (strip p).filter (fun c => c ≠ ' '))
          | _ => [strL "#   extra: " ++ g.1]))
    | some _ => .error .typeError
  | some _ => .error .typeError

/-- Embeds `ParserPyprojectToml.parse_requirements`: validation, then the
fixed `build`, `install`, `extras` processing order. -/
def parse_requirements (config : PyprojectConfig) (sources : List String) :
    Except PyErr (List (List Char)) := do
  let _ ← validate_sources sources
  let d0 ← if sources.contains "build" then parse_build_dependencies config
           else pure []
  let d1 ← if sources.contains "install" then parse_install_dependencies config
           else pure []
  let d2 ← if sources.contains "extras" then parse_extra_dependencies config
           else pure []
  pure (d0 ++ d1 ++ d2)

end ParserPyprojectToml

namespace Cli

/-- Python `s.split(",")`. -/
def splitOnComma : List Char → List (List Char)
  | [] => [[]]
  | c :: rest =>
    if c = ',' then [] :: splitOnComma rest
    else
      match splitOnComma rest with
      | [] => [[c]]
      | h :: t => (c :: h) :: t

/-- Loop of `cli.parse_sources`: each entry of the comma-separated request is
checked against the vocabulary and appended to the section list of the config
file it is hard-wired to (`install`, `extras` → setup.cfg;
`build` → pyproject.toml), independently of which files exist.  The
accumulator pair is (setup.cfg sections, pyproject.toml sections). -/
def parse_sources_loop (acc : List (List Char) × List (List Char)) :
    List (List Char) → Except PyErr (List (List Char) × List (List Char))
  | [] => .ok acc
  | entry :: rest =>
    if entry = strL "install" then
      parse_sources_loop (acc.1 ++ [strL "install_requires"], acc.2) rest
    else if entry = strL "extras" then
      parse_sources_loop (acc.1 ++ [strL "options.extras_require"], acc.2) rest
    else if entry = strL "build" then
      parse_sources_loop (acc.1, acc.2 ++ [strL "build-system"]) rest
    else .error (.invalidSource entry)

/-- Embeds `cli.parse_sources`.  The result models the dictionary
`{"setup.cfg": [...], "pyproject.toml": [...]}` whose insertion order puts
`setup.cfg` first. -/
def parse_sources (source : List Char) :
    Except PyErr (List (List Char) × List (List Char)) :=
  parse_sources_loop ([], []) (splitOnComma (strip source))

/-- Embeds `cli.parse_setup_cfg` (the old-style module-level function): it
walks the requested section names in order; `install_requires` is looked up
inside the unguarded `config["options"]`, `options.extras_require` is a
top-level section. -/
def parse_setup_cfg (config : SetupCfgConfig) :
    List (List Char) → Except PyErr (List (List Char))
  | [] => .ok []
  | source :: rest =>
    if source = strL "install_requires" then
      match alookup (strL "options") config with
      | none => .error (.keyError (strL "options"))
      | some options =>
        match alookup source options with
        | none => .error (.missingField source)
        | some value => do
          let tail ← parse_setup_cfg config rest
          pure ((strL "# Install (run-time) dependencies from setup.cfg" ::
            (splitNl (strip value)).map strip) ++ tail)
    else if source = strL "options.extras_require" then
      match alookup source config with
      | none => .error (.missingSection source (strL "setup.cfg"))
      | some sections => do
        let tail ← parse_setup_cfg config rest
        pure ((strL "# Extra (optional) dependencies from setup.cfg" ::
          sections.flatMap (fun sec =>
            (strL "#   extra: " ++ sec.1) :: (splitNl (strip sec.2)).map strip)) ++ tail)
    else parse_setup_cfg config rest

/-- Embeds `cli.parse_pyproject_toml` (the old-style module-level function):
only the `build-system` section name is handled. -/
def parse_pyproject_toml (config : PyprojectConfig) :
    List (List Char) → Except PyErr (List (List Char))
  | [] => .ok []
  | source :: rest =>
    if source = strL "build-system" then
      match alookup source config with
      | none => .error (.missingSection source (strL "pyproject.toml"))
      | some (.table section_) =>
        match alookup (strL "requires") section_ with
        | none => .error (.missingEntry (strL "requires") source)
        | some (.arr packages) => do
          let tail ← parse_pyproject_toml config rest
          pure ((strL "# Build dependencies from pyproject.toml" ::
            packages.map strip) ++ tail)
        | some _ => .error .typeError
      | some _ => .error .typeError
    else parse_pyproject_toml config rest

/-- Embeds the extraction loop of `cli.main`: the plan built by
`parse_sources` is iterated in its dictionary insertion order — `setup.cfg`
first, then `pyproject.toml` — skipping a file whose section list is empty,
and the per-file results are concatenated.  The two `Option` arguments model
which files exist: `read_setup_cfg` uses `ConfigParser.read`, which silently
yields an empty config for a missing file, while `read_pyproject_toml` opens
the file and raises `FileNotFoundError` when it is missing. -/
def main_extract (setup_cfg : Option SetupCfgConfig)
    (pyproject_toml : Option PyprojectConfig) (source : List Char) :
    Except PyErr (List (List Char)) := do
  let plan ← parse_sources source
  let d1 ←
    if plan.1 = [] then pure []
    else parse_setup_cfg (setup_cfg.getD []) plan.1
  let d2 ←
    if plan.2 = [] then pure []
    else
      match pyproject_toml with
      | none => .error (.fileNotFound (strL "pyproject.toml"))
      | some config => parse_pyproject_toml config plan.2
  pure (d1 ++ d2)

end Cli

/-- The error kinds of the spec's Configuration Locator (spec §4.2, §7). -/
inductive LocateError : Type where
  | noConfigFound : LocateError
  | buildRequiresPyproject : LocateError
deriving DecidableEq

/-- Modelled from the spec: `get_sources_and_config_files`, the Configuration
Locator of spec §4.2.  The function is imported and specified by
`tests/test_cli_utils.py`, but its body is not among the provided sources
(the provided `cli.py` is an older snapshot without it).  Following the
spec's decision table, first matching rule applying: neither file present
fails with `NoConfigFound`; `build` requested with pyproject.toml absent
fails with `BuildRequiresPyproject`; a single present file receives all
requested categories; with both present, `build` goes to pyproject.toml and
the remaining categories to setup.cfg, entries with an empty category list
being omitted, pyproject.toml listed before setup.cfg. -/
def get_sources_and_config_files (sources : List String)
    (setup_cfg_exists pyproject_toml_exists : Bool) :
    Except LocateError (List (String × List String)) :=
  if !setup_cfg_exists && !pyproject_toml_exists then
    .error .noConfigFound
  else if sources.contains "build" && !pyproject_toml_exists then
    .error .buildRequiresPyproject
  else if !setup_cfg_exists then
    .ok [("pyproject.toml", sources)]
  else if !pyproject_toml_exists then
    .ok [("setup.cfg", sources)]
  else
    .ok ((if sources.contains "build" then [("pyproject.toml", ["build"])] else []) ++
      (if sources.filter (fun s => s ≠ "build") = [] then []
       else [("setup.cfg", sources.filter (fun s => s ≠ "build"))]))

example : get_sources_and_config_files ["install", "build"] true true =
    .ok [("pyproject.toml", ["build"]), ("setup.cfg", ["install"])] := by decide
example : get_sources_and_config_files ["install"] false true =
    .ok [("pyproject.toml", ["install"])] := by decide
example : get_sources_and_config_files ["install", "build"] true false =
    .error .buildRequiresPyproject := by decide

/-- A concrete parsed setup.cfg (shaped like `tests/conftest.py`). -/
def sampleSetupCfg : SetupCfgConfig :=
  [(strL "options",
     [(strL "python_requires", strL ">=3.6"),
      (strL "install_requires", strL "click>=8.0.0,<9.0.0\nrich>=9.6.0,<11.0.0")]),
   (strL "options.extras_require", [(strL "jupyter", strL "nbformat>=5.1")])]

/-- A concrete parsed pyproject.toml (shaped like `tests/conftest.py`). -/
def samplePyproject : PyprojectConfig :=
  [(strL "build-system",
     .table [(strL "requires", .arr [strL "setuptools>=45", strL "wheel"])]),
   (strL "project",
     .table
       [(strL "dependencies", .arr [strL "click >= 8.0.0, < 9.0.0"]),
        (strL "optional-dependencies",
          .table [(strL "jupyter", .arr [strL "nbformat >= 5.1"])])])]

example : ParserPyprojectToml.parse_requirements samplePyproject ["extras", "install"] =
    .ok [strL "# Install dependencies from pyproject.toml",
      strL "click>=8.0.0,<9.0.0",
      strL "# Extra (optional) dependencies from pyproject.toml",
      strL "#   extra: jupyter",
      strL "nbformat>=5.1"] := by decide

example : ParserSetupCfg.parse_requirements sampleSetupCfg ["extras", "install"] =
    .ok [strL "# Install (run-time) dependencies from setup.cfg",
      strL "click>=8.0.0,<9.0.0",
      strL "rich>=9.6.0,<11.0.0",
      strL "# Extra (optional) dependencies from setup.cfg",
      strL "#   extra: jupyter",
      strL "nbformat>=5.1"] := by decide

example : ParserSetupCfg.parse_extra_dependencies
    [(strL "options.extras_require", [(strL "foo", strL "")])] =
    .ok [strL "# Extra (optional) dependencies from setup.cfg",
      strL "#   extra: foo", []] := by decide

example : Cli.main_extract (some sampleSetupCfg) (some samplePyproject)
    (strL "install,build") =
    .ok [strL "# Install (run-time) dependencies from setup.cfg",
      strL "click>=8.0.0,<9.0.0",
      strL "rich>=9.6.0,<11.0.0",
      strL "# Build dependencies from pyproject.toml",
      strL "setuptools>=45",
      strL "wheel"] := by decide

example : ParserSetupCfg.parse_install_dependencies [] =
    .error (.keyError (strL "options")) := by decide

theorem except_bind_ok {ε α β : Type} (a : α) (f : α → Except ε β) :
    (Except.ok (ε := ε) a >>= f) = f a := rfl

/-- C1: for every non-empty, duplicate-free request drawn from
{install, extras, build}, when only pyproject.toml exists the source plan is
the single entry routing all requested categories to pyproject.toml, and no
plan entry routes anything to setup.cfg. -/
theorem c1_only_pyproject_routes_all (S : List String) (hne : S ≠ [])
    (hnd : S.Nodup) (hmem : ∀ x ∈ S, x ∈ valid_sources_list) :
    get_sources_and_config_files S false true = .ok [("pyproject.toml", S)] ∧
    ∀ plan, get_sources_and_config_files S false true = .ok plan →
      ∀ e ∈ plan, e.1 ≠ "setup.cfg" := by
  refine ⟨by simp [get_sources_and_config_files], ?_⟩
  intro plan h e he
  simp [get_sources_and_config_files] at h
  rw [← h] at he
  simp at he
  rw [he]
  exact fun hcon => (by decide : ¬("pyproject.toml" : String) = "setup.cfg") hcon

theorem c1_witness :
    (["install", "extras"] : List String) ≠ [] ∧
    (["install", "extras"] : List String).Nodup ∧
    get_sources_and_config_files ["install", "extras"] false true =
      .ok [("pyproject.toml", ["install", "extras"])] :=
  ⟨by decide, by decide,
    (c1_only_pyproject_routes_all ["install", "extras"] (by decide) (by decide)
      (by decide)).1⟩

/-- C2: for every request containing `build`, when only setup.cfg exists the
locator fails with the `BuildRequiresPyproject` kind (so in particular not
with any missing-section kind, which belongs to the extractors and cannot
arise during planning). -/
theorem c2_build_without_pyproject_fails (S : List String) (hb : "build" ∈ S) :
    get_sources_and_config_files S true false = .error .buildRequiresPyproject := by
  have hc : S.contains "build" = true := List.elem_eq_true_of_mem hb
  simp [get_sources_and_config_files, hc, hb]

theorem c2_witness :
    "build" ∈ (["install", "build"] : List String) ∧
    get_sources_and_config_files ["install", "build"] true false =
      .error .buildRequiresPyproject :=
  ⟨by decide, c2_build_without_pyproject_fails ["install", "build"] (by decide)⟩

/-- C3 counterexample: with both files present and the request
"install,build", the pipeline of `cli.main` emits setup.cfg's extraction
(the install lines) before pyproject.toml's extraction (the build lines),
not the other way around as claimed. -/
theorem c3_counterexample :
    Cli.main_extract (some sampleSetupCfg) (some samplePyproject)
      (strL "install,build") =
      .ok ([strL "# Install (run-time) dependencies from setup.cfg",
        strL "click>=8.0.0,<9.0.0", strL "rich>=9.6.0,<11.0.0"] ++
        [strL "# Build dependencies from pyproject.toml",
          strL "setuptools>=45", strL "wheel"]) ∧
    Cli.main_extract (some sampleSetupCfg) (some samplePyproject)
      (strL "install,build") ≠
      .ok ([strL "# Build dependencies from pyproject.toml",
        strL "setuptools>=45", strL "wheel"] ++
        [strL "# Install (run-time) dependencies from setup.cfg",
          strL "click>=8.0.0,<9.0.0", strL "rich>=9.6.0,<11.0.0"]) := by
  constructor
  · decide
  · decide

/-- C3 amended: whenever both configuration files are read in one
invocation, the emitted requirement list is setup.cfg's extraction followed
by pyproject.toml's extraction (install/extras lines precede build lines),
because the plan dictionary lists setup.cfg before pyproject.toml. -/
theorem c3_amended (scfg : SetupCfgConfig) (ppt : PyprojectConfig)
    (source : List Char) (plan : List (List Char) × List (List Char))
    (d1 d2 : List (List Char))
    (hplan : Cli.parse_sources source = .ok plan)
    (h1 : plan.1 ≠ []) (h2 : plan.2 ≠ [])
    (hd1 : Cli.parse_setup_cfg scfg plan.1 = .ok d1)
    (hd2 : Cli.parse_pyproject_toml ppt plan.2 = .ok d2) :
    Cli.main_extract (some scfg) (some ppt) source = .ok (d1 ++ d2) := by
  simp [Cli.main_extract, hplan, except_bind_ok, if_neg h1, if_neg h2, hd1, hd2]

theorem c3_amended_witness :
    Cli.main_extract (some sampleSetupCfg) (some samplePyproject)
      (strL "build,extras") =
      .ok ([strL "# Extra (optional) dependencies from setup.cfg",
        strL "#   extra: jupyter", strL "nbformat>=5.1"] ++
        [strL "# Build dependencies from pyproject.toml",
          strL "setuptools>=45", strL "wheel"]) :=
  c3_amended sampleSetupCfg samplePyproject (strL "build,extras")
    ([strL "options.extras_require"], [strL "build-system"])
    [strL "# Extra (optional) dependencies from setup.cfg",
      strL "#   extra: jupyter", strL "nbformat>=5.1"]
    [strL "# Build dependencies from pyproject.toml",
      strL "setuptools>=45", strL "wheel"]
    (by decide) (by decide) (by decide) (by decide) (by decide)

/-- C4 counterexample: requesting `["extras", "install"]` from the
pyproject.toml extractor yields the install block before the extras block,
not the caller-supplied order claimed. -/
theorem c4_counterexample :
    ParserPyprojectToml.parse_requirements samplePyproject ["extras", "install"] =
      .ok ([strL "# Install dependencies from pyproject.toml",
        strL "click>=8.0.0,<9.0.0"] ++
        [strL "# Extra (optional) dependencies from pyproject.toml",
          strL "#   extra: jupyter", strL "nbformat>=5.1"]) ∧
    ParserPyprojectToml.parse_requirements samplePyproject ["extras", "install"] ≠
      .ok ([strL "# Extra (optional) dependencies from pyproject.toml",
        strL "#   extra: jupyter", strL "nbformat>=5.1"] ++
        [strL "# Install dependencies from pyproject.toml",
          strL "click>=8.0.0,<9.0.0"]) := by
  constructor
  · decide
  · decide

/-- C4 amended: `parse_requirements` concatenates the per-category outputs
in the extractor's fixed internal order (setup.cfg: install then extras;
pyproject.toml: build, install, extras), independently of the caller-supplied
order of the category list; in particular `["extras", "install"]` yields the
install block before the extras block. -/
theorem c4_amended :
    (∀ (config : SetupCfgConfig) (s1 s2 : List String),
      (∀ x : String, x ∈ s1 ↔ x ∈ s2) →
      validate_sources s1 = .ok () → validate_sources s2 = .ok () →
      ParserSetupCfg.parse_requirements config s1 =
        ParserSetupCfg.parse_requirements config s2) ∧
    (∀ (config : PyprojectConfig) (s1 s2 : List String),
      (∀ x : String, x ∈ s1 ↔ x ∈ s2) →
      validate_sources s1 = .ok () → validate_sources s2 = .ok () →
      ParserPyprojectToml.parse_requirements config s1 =
        ParserPyprojectToml.parse_requirements config s2) ∧
    (∀ (config : SetupCfgConfig) (d1 d2 : List (List Char)),
      ParserSetupCfg.parse_install_dependencies config = .ok d1 →
      ParserSetupCfg.parse_extra_dependencies config = .ok d2 →
      ParserSetupCfg.parse_requirements config ["extras", "install"] =
        .ok (d1 ++ d2)) ∧
    (∀ (config : PyprojectConfig) (d1 d2 : List (List Char)),
      ParserPyprojectToml.parse_install_dependencies config = .ok d1 →
      ParserPyprojectToml.parse_extra_dependencies config = .ok d2 →
      ParserPyprojectToml.parse_requirements config ["extras", "install"] =
        .ok (d1 ++ d2)) ∧
    (∀ (config : PyprojectConfig) (d0 d1 d2 : List (List Char)),
      ParserPyprojectToml.parse_build_dependencies config = .ok d0 →
      ParserPyprojectToml.parse_install_dependencies config = .ok d1 →
      ParserPyprojectToml.parse_extra_dependencies config = .ok d2 →
      ParserPyprojectToml.parse_requirements config ["extras", "install", "build"] =
        .ok (d0 ++ d1 ++ d2)) := by
  refine ⟨?_, ?_, ?_, ?_, ?_⟩
  · intro config s1 s2 hc hv1 hv2
    simp [ParserSetupCfg.parse_requirements, hv1, hv2, except_bind_ok,
      hc "build", hc "install", hc "extras"]
  · intro config s1 s2 hc hv1 hv2
    simp [ParserPyprojectToml.parse_requirements, hv1, hv2, except_bind_ok,
      hc "build", hc "install", hc "extras"]
  · intro config d1 d2 h1 h2
    have hv : validate_sources ["extras", "install"] = .ok () := by decide
    simp [ParserSetupCfg.parse_requirements, hv, except_bind_ok, h1, h2,
      show (["extras", "install"] : List String).contains "build" = false by decide,
      show (["extras", "install"] : List String).contains "install" = true by decide,
      show (["extras", "install"] : List String).contains "extras" = true by decide]
  · intro config d1 d2 h1 h2
    have hv : validate_sources ["extras", "install"] = .ok () := by decide
    simp [ParserPyprojectToml.parse_requirements, hv, except_bind_ok, h1, h2,
      show (["extras", "install"] : List String).contains "build" = false by decide,
      show (["extras", "install"] : List String).contains "install" = true by decide,
      show (["extras", "install"] : List String).contains "extras" = true by decide]
  · intro config d0 d1 d2 h0 h1 h2
    have hv : validate_sources ["extras", "install", "build"] = .ok () := by decide
    simp [ParserPyprojectToml.parse_requirements, hv, except_bind_ok, h0, h1, h2,
      show (["extras", "install", "build"] : List String).contains "build" = true by
        decide,
      show (["extras", "install", "build"] : List String).contains "install" = true by
        decide,
      show (["extras", "install", "build"] : List String).contains "extras" = true by
        decide]

theorem c4_amended_witness :
    ParserSetupCfg.parse_requirements sampleSetupCfg ["extras", "install"] =
      .ok ([strL "# Install (run-time) dependencies from setup.cfg",
        strL "click>=8.0.0,<9.0.0", strL "rich>=9.6.0,<11.0.0"] ++
        [strL "# Extra (optional) dependencies from setup.cfg",
          strL "#   extra: jupyter", strL "nbformat>=5.1"]) ∧
    ParserPyprojectToml.parse_requirements samplePyproject
      ["extras", "install", "build"] =
      .ok ([strL "# Build dependencies from pyproject.toml",
        strL "setuptools>=45", strL "wheel"] ++
        [strL "# Install dependencies from pyproject.toml",
          strL "click>=8.0.0,<9.0.0"] ++
        [strL "# Extra (optional) dependencies from pyproject.toml",
          strL "#   extra: jupyter", strL "nbformat>=5.1"]) :=
  ⟨c4_amended.2.2.1 sampleSetupCfg
    [strL "# Install (run-time) dependencies from setup.cfg",
      strL "click>=8.0.0,<9.0.0", strL "rich>=9.6.0,<11.0.0"]
    [strL "# Extra (optional) dependencies from setup.cfg",
      strL "#   extra: jupyter", strL "nbformat>=5.1"]
    (by decide) (by decide),
   c4_amended.2.2.2.2 samplePyproject
    [strL "# Build dependencies from pyproject.toml",
      strL "setuptools>=45", strL "wheel"]
    [strL "# Install dependencies from pyproject.toml",
      strL "click>=8.0.0,<9.0.0"]
    [strL "# Extra (optional) dependencies from pyproject.toml",
      strL "#   extra: jupyter", strL "nbformat>=5.1"]
    (by decide) (by decide) (by decide)⟩

/-- C5 counterexample: in the setup.cfg extractor an extras group declared
with the empty string is followed by one empty requirement line (splitting
the empty string yields one empty entry), not by nothing. -/
theorem c5_counterexample :
    ParserSetupCfg.parse_extra_dependencies
      [(strL "options.extras_require", [(strL "foo", strL "")])] ≠
      .ok [strL "# Extra (optional) dependencies from setup.cfg",
        strL "#   extra: foo"] ∧
    ParserSetupCfg.parse_extra_dependencies
      [(strL "options.extras_require", [(strL "foo", strL "")])] =
      .ok [strL "# Extra (optional) dependencies from setup.cfg",
        strL "#   extra: foo", []] := by
  constructor
  · decide
  · decide

/-- C5 amended: in every extras extraction the output decomposes per group,
in declared order, into one label comment followed by that group's entries;
hence in the pyproject.toml extractor a group declared with zero packages —
at any position, in any configuration — contributes exactly its label
comment (immediately followed by the next group's label or by nothing),
while in the setup.cfg extractor a zero-package group contributes its label
followed by one empty line (splitting the empty string yields one empty
entry). -/
theorem c5_amended :
    (∀ (config : PyprojectConfig) (section_ : List (List Char × TomlVal))
      (groups : List (List Char × List (List Char))),
      alookup (strL "project") config = some (.table section_) →
      alookup (strL "optional-dependencies") section_ =
        some (.table (groups.map (fun g => (g.1, TomlVal.arr g.2)))) →
      ParserPyprojectToml.parse_extra_dependencies config =
        .ok (strL "# Extra (optional) dependencies from pyproject.toml" ::
          groups.flatMap (fun g => (strL "#   extra: " ++ g.1) ::
            g.2.map (fun p => (strip p).filter (fun c => c ≠ ' '))))) ∧
    (∀ (config : PyprojectConfig) (section_ : List (List Char × TomlVal))
      (pre post : List (List Char × List (List Char))) (name : List Char),
      alookup (strL "project") config = some (.table section_) →
      alookup (strL "optional-dependencies") section_ =
        some (.table ((pre ++ (name, []) :: post).map
          (fun g => (g.1, TomlVal.arr g.2)))) →
      ParserPyprojectToml.parse_extra_dependencies config =
        .ok ((strL "# Extra (optional) dependencies from pyproject.toml" ::
          pre.flatMap (fun g => (strL "#   extra: " ++ g.1) ::
            g.2.map (fun p => (strip p).filter (fun c => c ≠ ' ')))) ++
          (strL "#   extra: " ++ name) ::
            post.flatMap (fun g => (strL "#   extra: " ++ g.1) ::
              g.2.map (fun p => (strip p).filter (fun c => c ≠ ' '))))) ∧
    (∀ (config : SetupCfgConfig) (sections : List (List Char × List Char)),
      alookup (strL "options.extras_require") config = some sections →
      ParserSetupCfg.parse_extra_dependencies config =
        .ok (strL "# Extra (optional) dependencies from setup.cfg" ::
          sections.flatMap (fun sec => (strL "#   extra: " ++ sec.1) ::
            (splitNl (strip sec.2)).map strip))) ∧
    (∀ (config : SetupCfgConfig) (pre post : List (List Char × List Char))
      (name : List Char),
      alookup (strL "options.extras_require") config =
        some (pre ++ (name, []) :: post) →
      ParserSetupCfg.parse_extra_dependencies config =
        .ok ((strL "# Extra (optional) dependencies from setup.cfg" ::
          pre.flatMap (fun sec => (strL "#   extra: " ++ sec.1) ::
            (splitNl (strip sec.2)).map strip)) ++
          (strL "#   extra: " ++ name) :: [] ::
            post.flatMap (fun sec => (strL "#   extra: " ++ sec.1) ::
              (splitNl (strip sec.2)).map strip))) := by
  refine ⟨?_, ?_, ?_, ?_⟩
  · intro config section_ groups h1 h2
    simp [ParserPyprojectToml.parse_extra_dependencies, h1, h2, List.flatMap_map]
  · intro config section_ pre post name h1 h2
    simp [ParserPyprojectToml.parse_extra_dependencies, h1, h2, List.flatMap_map,
      List.flatMap_append]
  · intro config sections h
    simp [ParserSetupCfg.parse_extra_dependencies, h]
  · intro config pre post name h
    simp [ParserSetupCfg.parse_extra_dependencies, h, List.flatMap_append]
    rfl

theorem c5_amended_witness :
    ParserPyprojectToml.parse_extra_dependencies
      [(strL "project",
        .table [(strL "optional-dependencies",
          .table [(strL "a", .arr [strL "x >= 1"]), (strL "foo", .arr []),
            (strL "b", .arr [strL "y"])])])] =
      .ok [strL "# Extra (optional) dependencies from pyproject.toml",
        strL "#   extra: a", strL "x>=1",
        strL "#   extra: foo",
        strL "#   extra: b", strL "y"] ∧
    ParserSetupCfg.parse_extra_dependencies
      [(strL "options.extras_require",
        [(strL "a", strL "x>=1"), (strL "foo", []), (strL "b", strL "y")])] =
      .ok [strL "# Extra (optional) dependencies from setup.cfg",
        strL "#   extra: a", strL "x>=1",
        strL "#   extra: foo", [],
        strL "#   extra: b", strL "y"] :=
  ⟨c5_amended.2.1
    [(strL "project",
      .table [(strL "optional-dependencies",
        .table [(strL "a", .arr [strL "x >= 1"]), (strL "foo", .arr []),
          (strL "b", .arr [strL "y"])])])]
    [(strL "optional-dependencies",
      .table [(strL "a", .arr [strL "x >= 1"]), (strL "foo", .arr []),
        (strL "b", .arr [strL "y"])])]
    [(strL "a", [strL "x >= 1"])] [(strL "b", [strL "y"])] (strL "foo")
    (by rfl) (by rfl),
   c5_amended.2.2.2
    [(strL "options.extras_require",
      [(strL "a", strL "x>=1"), (strL "foo", []), (strL "b", strL "y")])]
    [(strL "a", strL "x>=1")] [(strL "b", strL "y")] (strL "foo")
    (by rfl)⟩

/-- C6: `validate_sources` succeeds on every non-empty duplicate-free list of
valid categories; the empty list gives the empty-input kind, a list with an
out-of-vocabulary entry gives the invalid-sources kind, and a list of valid
categories with a repeat gives the repeated-sources kind. -/
theorem c6_validate_sources_cases :
    (∀ s : List String, s ≠ [] → (∀ x ∈ s, x ∈ valid_sources_list) → s.Nodup →
      validate_sources s = .ok ()) ∧
    validate_sources [] = .error .emptySources ∧
    (∀ s : List String, (∃ x ∈ s, x ∉ valid_sources_list) →
      ∃ inv, validate_sources s = .error (.invalidSources inv)) ∧
    (∀ s : List String, (∀ x ∈ s, x ∈ valid_sources_list) → ¬ s.Nodup →
      ∃ rep, validate_sources s = .error (.repeatedSources rep)) := by
  refine ⟨?_, by decide, ?_, ?_⟩
  · intro s hne hmem hnd
    have hall : (s.all fun x => valid_sources_list.contains x) = true := by
      rw [List.all_eq_true]
      intro x hx
      exact List.elem_eq_true_of_mem (hmem x hx)
    have hrep : s.filter (fun x => decide (1 < s.count x)) = [] := by
      rw [List.filter_eq_nil_iff]
      intro a ha
      have h1 := List.nodup_iff_count_le_one.mp hnd a
      simp only [decide_eq_true_eq]
      omega
    unfold validate_sources
    rw [if_neg hne, hall]
    simp only [Bool.not_true, Bool.false_eq_true, if_false]
    rw [hrep]
    simp
  · intro s ⟨x, hx, hxv⟩
    have hne : s ≠ [] := by rintro rfl; cases hx
    have hcon : valid_sources_list.contains x = false := by
      cases h : valid_sources_list.contains x
      · rfl
      · exact absurd (List.mem_of_elem_eq_true h) hxv
    have hall : (s.all fun x => valid_sources_list.contains x) = false := by
      rw [List.all_eq_false]
      exact ⟨x, hx, by rw [hcon]; decide⟩
    refine ⟨valid_sources_list.filter (fun v => !(s.contains v)), ?_⟩
    unfold validate_sources
    rw [if_neg hne, hall]
    rfl
  · intro s hmem hnd
    have hne : s ≠ [] := by rintro rfl; exact hnd List.nodup_nil
    have hall : (s.all fun x => valid_sources_list.contains x) = true := by
      rw [List.all_eq_true]
      intro x hx
      exact List.elem_eq_true_of_mem (hmem x hx)
    obtain ⟨a, ha⟩ : ∃ a, 1 < s.count a := by
      by_contra hno
      push_neg at hno
      exact hnd (List.nodup_iff_count_le_one.mpr hno)
    have hmemf : a ∈ s.filter (fun x => decide (1 < s.count x)) :=
      List.mem_filter.mpr ⟨List.count_pos_iff.mp (by omega), by simpa using ha⟩
    have hfil : s.filter (fun x => decide (1 < s.count x)) ≠ [] :=
      List.ne_nil_of_mem hmemf
    refine ⟨s.filter (fun x => decide (1 < s.count x)), ?_⟩
    unfold validate_sources
    rw [if_neg hne, hall]
    simp only [Bool.not_true, Bool.false_eq_true, if_false]
    rw [if_pos hfil]

theorem c6_witness :
    validate_sources ["install"] = .ok () ∧
    validate_sources [] = .error .emptySources ∧
    (∃ inv, validate_sources ["oops"] = .error (.invalidSources inv)) ∧
    (∃ rep, validate_sources ["build", "build"] = .error (.repeatedSources rep)) :=
  ⟨c6_validate_sources_cases.1 ["install"] (by decide) (by decide) (by decide),
    c6_validate_sources_cases.2.1,
    c6_validate_sources_cases.2.2.1 ["oops"] ⟨"oops", by decide, by decide⟩,
    c6_validate_sources_cases.2.2.2 ["build", "build"] (by decide) (by decide)⟩

/-- C7: contrary to the claim, the invalid-sources failure reports the valid
categories missing from the request (`valid_sources - set(sources)`), not the
invalid entries of the request: for the request `["bogus"]` it reports all
three valid names and not `"bogus"`. -/
theorem c7_invalid_report_is_complement :
    validate_sources ["bogus"] =
      .error (.invalidSources ["build", "install", "extras"]) ∧
    "bogus" ∉ (["build", "install", "extras"] : List String) := by
  constructor
  · decide
  · decide

/-- C9: the pinner copies comment lines verbatim and rewrites every other
line to the text before its first comma with `>=` replaced by `==` and
surrounding whitespace stripped; in particular "bla>=12" ↦ "bla==12",
"bla<12" ↦ "bla<12", "bla>=11,<12" ↦ "bla==11" and "# meh" is unchanged. -/
theorem c9_pin_mapping :
    pin_to_oldest [strL "bla>=12", strL "bla<12", strL "bla>=11,<12", strL "# meh"] =
      [strL "bla==12", strL "bla<12", strL "bla==11", strL "# meh"] ∧
    (∀ ls, pin_to_oldest ls = ls.map pinLine) ∧
    (∀ l, pinLine l =
      if startsWithHash l then l else strip (replaceGe (beforeComma l))) :=
  ⟨by decide, fun _ => rfl, fun _ => rfl⟩

/-- C10: when the parsed setup.cfg has no `options` section at all,
`parse_install_dependencies` fails with the generic key-lookup error for
`options` (never with the missing-field kind); the missing-field failure is
produced exactly when `options` exists but lacks `install_requires`. -/
theorem c10_missing_options_is_key_error :
    (∀ config : SetupCfgConfig, alookup (strL "options") config = none →
      ParserSetupCfg.parse_install_dependencies config =
        .error (.keyError (strL "options")) ∧
      ∀ f, ParserSetupCfg.parse_install_dependencies config ≠
        .error (.missingField f)) ∧
    (∀ (config : SetupCfgConfig) (options : List (List Char × List Char)),
      alookup (strL "options") config = some options →
      alookup (strL "install_requires") options = none →
      ParserSetupCfg.parse_install_dependencies config =
        .error (.missingField (strL "install_requires"))) := by
  constructor
  · intro config h
    refine ⟨by simp [ParserSetupCfg.parse_install_dependencies, h], ?_⟩
    intro f
    simp [ParserSetupCfg.parse_install_dependencies, h]
  · intro config options h1 h2
    simp [ParserSetupCfg.parse_install_dependencies, h1, h2]

theorem hasGe_cons_of_ne (c : Char) (xs : List Char) (hc : c ≠ '>') :
    hasGe (c :: xs) = hasGe xs := by
  cases xs with
  | nil => simp [hasGe]
  | cons b rest => simp [hasGe, hc]

theorem hasGe_tail (a : Char) (l : List Char) (h : hasGe (a :: l) = false) :
    hasGe l = false := by
  cases l with
  | nil => rfl
  | cons b rest =>
    simp only [hasGe, Bool.or_eq_false_iff] at h
    exact h.2

theorem hasGGe_tail (a : Char) (l : List Char) (h : hasGGe (a :: l) = false) :
    hasGGe l = false := by
  cases l with
  | nil => rfl
  | cons b l2 =>
    cases l2 with
    | nil => rfl
    | cons c rest =>
      simp only [hasGGe, Bool.or_eq_false_iff] at h
      exact h.2

theorem replaceGe_of_not_hasGe (l : List Char) (h : hasGe l = false) :
    replaceGe l = l := by
  induction l with
  | nil => rfl
  | cons a tail ih =>
    cases tail with
    | nil => rfl
    | cons b rest =>
      simp only [hasGe, Bool.or_eq_false_iff] at h
      simp only [replaceGe]
      rw [if_neg (by simp [h.1]), ih h.2]

theorem hasGe_replaceGe_aux :
    ∀ (n : Nat) (l : List Char), l.length ≤ n → hasGGe l = false →
      hasGe (replaceGe l) = false := by
  intro n
  induction n with
  | zero =>
    intro l hl _
    rw [List.length_eq_zero.mp (Nat.le_zero.mp hl)]
    rfl
  | succ n ih =>
    intro l hl h
    cases l with
    | nil => rfl
    | cons a tail =>
      cases tail with
      | nil => rfl
      | cons b rest =>
        simp only [replaceGe]
        by_cases hab : (a = '>' ∧ b = '=')
        · obtain ⟨ha, hb⟩ := hab
          subst ha
          subst hb
          rw [if_pos (by simp)]
          rw [hasGe_cons_of_ne _ _ (by decide), hasGe_cons_of_ne _ _ (by decide)]
          refine ih rest ?_ (hasGGe_tail _ _ (hasGGe_tail _ _ h))
          simp only [List.length_cons] at hl
          omega
        · rw [if_neg (by simpa using hab)]
          have hrec : hasGe (replaceGe (b :: rest)) = false := by
            refine ih (b :: rest) ?_ (hasGGe_tail _ _ h)
            simp only [List.length_cons] at hl ⊢
            omega
          by_cases ha : a = '>'
          · subst ha
            have hb : b ≠ '=' := fun hb => hab ⟨rfl, hb⟩
            cases rest with
            | nil => simp [replaceGe, hasGe, hb]
            | cons r rs =>
              by_cases hbr : (b = '>' ∧ r = '=')
              · exfalso
                obtain ⟨hb', hr⟩ := hbr
                subst hb'
                subst hr
                simp [hasGGe] at h
              · have hshape : replaceGe (b :: r :: rs) = b :: replaceGe (r :: rs) := by
                  simp only [replaceGe]
                  rw [if_neg (by simpa using hbr)]
                rw [hshape]
                simp only [hasGe]
                rw [Bool.or_eq_false_iff]
                refine ⟨by simp [hb], ?_⟩
                rw [← hshape]
                exact hrec
          · rw [hasGe_cons_of_ne _ _ ha]
            exact hrec

theorem hasGe_replaceGe (l : List Char) (h : hasGGe l = false) :
    hasGe (replaceGe l) = false :=
  hasGe_replaceGe_aux l.length l Nat.le.refl h

theorem hasGe_of_append (s t : List Char) :
    hasGe (s ++ '>' :: '=' :: t) = true := by
  induction s with
  | nil => simp [hasGe]
  | cons c s2 ih =>
    cases s2 with
    | nil => simp [hasGe]
    | cons d s3 =>
      simp only [List.cons_append] at ih ⊢
      simp [hasGe, ih]

theorem exists_append_of_hasGe (l : List Char) (h : hasGe l = true) :
    ∃ s t, l = s ++ '>' :: '=' :: t := by
  induction l with
  | nil => simp [hasGe] at h
  | cons a tail ih =>
    cases tail with
    | nil => simp [hasGe] at h
    | cons b rest =>
      simp only [hasGe, Bool.or_eq_true] at h
      cases h with
      | inl h1 =>
        have h2 : a = '>' ∧ b = '=' := by simpa using h1
        exact ⟨[], rest, by simp [h2.1, h2.2]⟩
      | inr h2 =>
        obtain ⟨s, t, hst⟩ := ih h2
        exact ⟨a :: s, t, by rw [List.cons_append, ← hst]⟩

theorem hasGe_false_of_within (l1 l2 : List Char) (hinf : l1 <:+: l2)
    (h : hasGe l2 = false) : hasGe l1 = false := by
  cases hh : hasGe l1 with
  | false => rfl
  | true =>
    exfalso
    obtain ⟨s, t, hst⟩ := exists_append_of_hasGe l1 hh
    obtain ⟨u, v, huv⟩ := hinf
    have h2 := hasGe_of_append (u ++ s) (t ++ v)
    rw [show (u ++ s) ++ '>' :: '=' :: (t ++ v) = u ++ l1 ++ v by
      rw [hst]; simp [List.append_assoc], huv, h] at h2
    cases h2

theorem hasGGe_of_append (s t : List Char) :
    hasGGe (s ++ '>' :: '>' :: '=' :: t) = true := by
  induction s with
  | nil => simp [hasGGe]
  | cons c s2 ih =>
    cases s2 with
    | nil => simp [hasGGe]
    | cons d s3 =>
      cases s3 with
      | nil => simp [hasGGe]
      | cons e s4 =>
        simp only [List.cons_append] at ih ⊢
        simp [hasGGe, ih]

theorem exists_append_of_hasGGe (l : List Char) (h : hasGGe l = true) :
    ∃ s t, l = s ++ '>' :: '>' :: '=' :: t := by
  induction l with
  | nil => simp [hasGGe] at h
  | cons a tail ih =>
    cases tail with
    | nil => simp [hasGGe] at h
    | cons b l2 =>
      cases l2 with
      | nil => simp [hasGGe] at h
      | cons c rest =>
        simp only [hasGGe, Bool.or_eq_true] at h
        cases h with
        | inl h1 =>
          have h2 : (a = '>' ∧ b = '>') ∧ c = '=' := by simpa using h1
          exact ⟨[], rest, by simp [h2.1.1, h2.1.2, h2.2]⟩
        | inr h2 =>
          obtain ⟨s, t, hst⟩ := ih h2
          exact ⟨a :: s, t, by rw [List.cons_append, ← hst]⟩

theorem hasGGe_false_of_within (l1 l2 : List Char) (hinf : l1 <:+: l2)
    (h : hasGGe l2 = false) : hasGGe l1 = false := by
  cases hh : hasGGe l1 with
  | false => rfl
  | true =>
    exfalso
    obtain ⟨s, t, hst⟩ := exists_append_of_hasGGe l1 hh
    obtain ⟨u, v, huv⟩ := hinf
    have h2 := hasGGe_of_append (u ++ s) (t ++ v)
    rw [show (u ++ s) ++ '>' :: '>' :: '=' :: (t ++ v) = u ++ l1 ++ v by
      rw [hst]; simp [List.append_assoc], huv, h] at h2
    cases h2

theorem dropWhile_dropWhile (p : Char → Bool) (l : List Char) :
    (l.dropWhile p).dropWhile p = l.dropWhile p := by
  induction l with
  | nil => rfl
  | cons c t ih =>
    by_cases h : p c
    · simp [List.dropWhile_cons, h, ih]
    · simp [List.dropWhile_cons, h]

theorem lstrip_suffix (l : List Char) : lstrip l <:+ l := List.dropWhile_suffix _

theorem rstrip_isPrefix (l : List Char) : rstrip l <+: l := by
  have h : l.reverse.dropWhile isPySpace <:+ l.reverse := List.dropWhile_suffix _
  have h2 : (l.reverse.dropWhile isPySpace).reverse <+: l.reverse.reverse :=
    List.reverse_prefix.mpr h
  rw [List.reverse_reverse] at h2
  exact h2

theorem strip_within (l : List Char) : strip l <:+: l :=
  (rstrip_isPrefix (lstrip l)).isInfix.trans (lstrip_suffix l).isInfix

theorem lstrip_rstrip (l : List Char) (h : lstrip l = l) :
    lstrip (rstrip l) = rstrip l := by
  cases l with
  | nil => rfl
  | cons c t =>
    have hpc : isPySpace c = false := by
      cases hh : isPySpace c
      · rfl
      · exfalso
        unfold lstrip at h
        rw [List.dropWhile_cons, if_pos hh] at h
        have hlen : (List.dropWhile isPySpace t).length ≤ t.length :=
          (List.dropWhile_suffix _).length_le
        rw [h] at hlen
        simp only [List.length_cons] at hlen
        omega
    have hpre := rstrip_isPrefix (c :: t)
    cases hr : rstrip (c :: t) with
    | nil => rfl
    | cons d s =>
      obtain ⟨r, hr2⟩ := hpre
      have hd : d = c := by
        rw [hr, List.cons_append] at hr2
        injection hr2 with h1 _
      subst hd
      unfold lstrip
      rw [List.dropWhile_cons, if_neg (by simp [hpc])]

theorem rstrip_idem (l : List Char) : rstrip (rstrip l) = rstrip l := by
  unfold rstrip
  rw [List.reverse_reverse, dropWhile_dropWhile]

theorem strip_idem (l : List Char) : strip (strip l) = strip l := by
  unfold strip
  rw [lstrip_rstrip (lstrip l) (dropWhile_dropWhile _ _), rstrip_idem]

theorem mem_replaceGe_aux :
    ∀ (n : Nat) (l : List Char), l.length ≤ n → ∀ c ∈ replaceGe l, c ∈ l ∨ c = '=' := by
  intro n
  induction n with
  | zero =>
    intro l hl c hc
    rw [List.length_eq_zero.mp (Nat.le_zero.mp hl)] at hc
    cases hc
  | succ n ih =>
    intro l hl c hc
    cases l with
    | nil => cases hc
    | cons a tail =>
      cases tail with
      | nil =>
        left
        exact hc
      | cons b rest =>
        simp only [replaceGe] at hc
        by_cases hab : (a = '>' ∧ b = '=')
        · rw [if_pos (by simp [hab.1, hab.2])] at hc
          simp only [List.mem_cons] at hc
          rcases hc with hc | hc | hc
          · right; exact hc
          · right; exact hc
          · rcases ih rest (by simp only [List.length_cons] at hl; omega) c hc with
              hm | he
            · left
              simp [hm]
            · right
              exact he
        · rw [if_neg (by simpa using hab)] at hc
          simp only [List.mem_cons] at hc
          rcases hc with hc | hc
          · left
            simp [hc]
          · rcases ih (b :: rest) (by simp only [List.length_cons] at hl ⊢; omega) c hc
              with hm | he
            · left
              simp only [List.mem_cons] at hm ⊢
              tauto
            · right
              exact he

theorem mem_replaceGe (l : List Char) (c : Char) (hc : c ∈ replaceGe l) :
    c ∈ l ∨ c = '=' :=
  mem_replaceGe_aux l.length l Nat.le.refl c hc

theorem beforeComma_eq_self (l : List Char) (h : ∀ c ∈ l, c ≠ ',') :
    beforeComma l = l := by
  unfold beforeComma
  rw [List.takeWhile_eq_self_iff]
  intro x hx
  simpa using h x hx

/-- The output of `pinLine` on a non-comment line contains no comma and no
remaining `>=` whenever the input had no `>>=`. -/
theorem pinLine_output_clean (l : List Char) (hgg : hasGGe l = false) :
    (∀ c ∈ strip (replaceGe (beforeComma l)), c ≠ ',') ∧
    hasGe (strip (replaceGe (beforeComma l))) = false := by
  constructor
  · intro c hc
    have hc2 : c ∈ replaceGe (beforeComma l) := (strip_within _).subset hc
    rcases mem_replaceGe _ c hc2 with hm | he
    · intro hcon
      subst hcon
      have ht := List.mem_takeWhile_imp hm
      simp at ht
    · subst he
      decide
  · refine hasGe_false_of_within _ _ (strip_within _) ?_
    refine hasGe_replaceGe _ ?_
    exact hasGGe_false_of_within _ _ ( List.takeWhile_prefix _).isInfix hgg

/-- Applying the pinning line transformation twice is the same as applying it
once, on any line not containing ">>=". -/
theorem pinLine_idem (l : List Char) (hgg : hasGGe l = false) :
    pinLine (pinLine l) = pinLine l := by
  by_cases hcom : startsWithHash l = true
  · simp only [pinLine, if_pos hcom]
  · have hl : pinLine l = strip (replaceGe (beforeComma l)) := by
      simp only [pinLine, if_neg hcom]
    rw [hl]
    obtain ⟨hnc, hge⟩ := pinLine_output_clean l hgg
    by_cases hcom2 : startsWithHash (strip (replaceGe (beforeComma l))) = true
    · simp only [pinLine, if_pos hcom2]
    · simp only [pinLine, if_neg hcom2]
      rw [beforeComma_eq_self _ hnc, replaceGe_of_not_hasGe _ hge]
      exact strip_idem _

/-- C8 counterexample: pinning is not idempotent on arbitrary lists of
strings: on the line "a>>=1" the replacement of ">=" by "==" creates a fresh
">=", so a second pass rewrites the line again. -/
theorem c8_counterexample :
    pin_to_oldest (pin_to_oldest [strL "a>>=1"]) ≠ pin_to_oldest [strL "a>>=1"] ∧
    pin_to_oldest [strL "a>>=1"] = [strL "a>==1"] ∧
    pin_to_oldest (pin_to_oldest [strL "a>>=1"]) = [strL "a===1"] := by
  refine ⟨by decide, by decide, by decide⟩

/-- C8 amended: the pinner is idempotent on every requirement list none of
whose lines contains the substring ">>=" (in particular on every list of
well-formed requirement specifiers and comments): after one pass no ">="
remains in a non-comment line, truncation at the first comma is a no-op, and
stripping is idempotent. -/
theorem c8_amended (ls : List (List Char)) (h : ∀ l ∈ ls, hasGGe l = false) :
    pin_to_oldest (pin_to_oldest ls) = pin_to_oldest ls := by
  unfold pin_to_oldest
  rw [List.map_map]
  apply List.map_congr_left
  intro a ha
  simp only [Function.comp_apply]
  exact pinLine_idem a (h a ha)

theorem c8_amended_witness :
    (∀ l ∈ [strL "# meh", strL "bla>=11,<12", strL "  nbformat>=5.1 "],
      hasGGe l = false) ∧
    pin_to_oldest (pin_to_oldest
      [strL "# meh", strL "bla>=11,<12", strL "  nbformat>=5.1 "]) =
      pin_to_oldest [strL "# meh", strL "bla>=11,<12", strL "  nbformat>=5.1 "] :=
  ⟨by decide, c8_amended _ (by decide)⟩

theorem c10_witness :
    alookup (strL "options") ([] : SetupCfgConfig) = none ∧
    ParserSetupCfg.parse_install_dependencies [] =
      .error (.keyError (strL "options")) ∧
    ParserSetupCfg.parse_install_dependencies [(strL "options", [])] =
      .error (.missingField (strL "install_requires")) :=
  ⟨by decide,
    (c10_missing_options_is_key_error.1 [] (by decide)).1,
    c10_missing_options_is_key_error.2 [(strL "options", [])] [] (by decide) (by decide)⟩
